import Mathlib

/-!
Verification of the file-ingestion core of `src/testapp.py` (a Streamlit
dashboard that uploads up to three delimited-text/spreadsheet files, merges
them and offers the merged table for download).

The Python source is shallowly embedded:
* byte buffers are `List Nat` (one entry per byte);
* pandas cell values are `Cell` (a string or a null/NaN);
* fallible library calls (`csv.Sniffer.sniff`, `pd.read_csv`,
  `pd.read_excel`, `pd.to_datetime`) are abstracted as explicit oracle
  parameters returning `Option`/`Except`; a `none`/`.error` result models the
  Python exception that the source catches;
* the Streamlit file object is a `UploadedFile` state (bytes plus read
  position) threaded explicitly.
-/

namespace TestApp

/-- A pandas cell: either a string value or a missing value (NaN/None). -/
inductive Cell where
  | null : Cell
  | str : String → Cell
deriving DecidableEq, Repr

/-- A pandas DataFrame as produced by the table readers: a header (column
names, in order) and rows of cells. -/
structure DFrame where
  cols : List String
  rows : List (List Cell)
deriving DecidableEq, Repr

/-- Whether a byte is a UTF-8 continuation byte (10xxxxxx). -/
def isContByte (b : Nat) : Bool := 0x80 ≤ b && b ≤ 0xBF

/-- Strict UTF-8 decoding of a byte list (`bytes.decode("utf-8")` in
testapp.py line 24): `none` models the `UnicodeDecodeError` the source
catches.  Overlong encodings, surrogates and out-of-range code points are
rejected, as in Python. -/
def utf8Decode : List Nat → Option (List Char)
  | [] => some []
  | b :: rest =>
    if b < 0x80 then
      (utf8Decode rest).map (fun cs => Char.ofNat b :: cs)
    else if 0xC2 ≤ b && b ≤ 0xDF then
      match rest with
      | b2 :: rest2 =>
        if isContByte b2 then
          (utf8Decode rest2).map (fun cs =>
            Char.ofNat ((b - 0xC0) * 64 + (b2 - 0x80)) :: cs)
        else none
      | [] => none
    else if 0xE0 ≤ b && b ≤ 0xEF then
      match rest with
      | b2 :: b3 :: rest3 =>
        if isContByte b2 && isContByte b3 then
          let cp := (b - 0xE0) * 4096 + (b2 - 0x80) * 64 + (b3 - 0x80)
          if 0x800 ≤ cp && (cp < 0xD800 || 0xDFFF < cp) then
            (utf8Decode rest3).map (fun cs => Char.ofNat cp :: cs)
          else none
        else none
      | _ => none
    else if 0xF0 ≤ b && b ≤ 0xF4 then
      match rest with
      | b2 :: b3 :: b4 :: rest4 =>
        if isContByte b2 && isContByte b3 && isContByte b4 then
          let cp := (b - 0xF0) * 262144 + (b2 - 0x80) * 4096
                      + (b3 - 0x80) * 64 + (b4 - 0x80)
          if 0x10000 ≤ cp && cp ≤ 0x10FFFF then
            (utf8Decode rest4).map (fun cs => Char.ofNat cp :: cs)
          else none
        else none
      | _ => none
    else none

/-- Latin-1 decoding (`bytes.decode("latin1")`, testapp.py line 27): each
byte maps to the code point of the same value.  On byte buffers this can
never fail, so the source's final `return ","` fallback (line 29) is
unreachable and the embedding is total. -/
def latin1Decode (bytes : List Nat) : List Char :=
  bytes.map Char.ofNat

/-- The text `detect_delimiter` works on (testapp.py lines 23-28): the
sample decoded as UTF-8 when possible, otherwise as Latin-1. -/
def decodedText (sampleBytes : List Nat) : String :=
  match utf8Decode sampleBytes with
  | some cs => String.mk cs
  | none => String.mk (latin1Decode sampleBytes)

/-- The encoding under which `detect_delimiter` decodes its sample (the
branch taken in testapp.py lines 23-28). -/
def decodeEncoding (sampleBytes : List Nat) : String :=
  match utf8Decode sampleBytes with
  | some _ => "utf-8"
  | none => "latin1"

/-- The first ~4096 characters of the decoded sample, handed to
`csv.Sniffer().sniff` (testapp.py line 32). -/
def snifferSample (sampleBytes : List Nat) : String :=
  String.mk ((decodedText sampleBytes).data.take 4096)

/-- The common-delimiter candidates tried when the sniffer fails
(testapp.py line 36). -/
def fallbackDelimChars : List Char := [',', ';', '\t', '|']

/-- Character membership in a string (Python `d in text` for a one-character
delimiter `d`). -/
def strContainsChar (s : String) (c : Char) : Bool :=
  s.data.contains c

/-- Fallback delimiter choice (testapp.py lines 35-39): the first of
`,` `;` tab `|` present anywhere in the decoded text, else `,`. -/
def delimiterFallback (text : String) : String :=
  match fallbackDelimChars.find? (fun c => strContainsChar text c) with
  | some c => String.mk [c]
  | none => ","

/-- Embedding of `detect_delimiter` (testapp.py lines 19-39).  `sniffO`
abstracts `csv.Sniffer().sniff`: `some d` is a confidently sniffed
delimiter, `none` models the exception the source catches before falling
back to `delimiterFallback`. -/
def detect_delimiter (sniffO : String → Option String) (sampleBytes : List Nat) : String :=
  match sniffO (snifferSample sampleBytes) with
  | some d => d
  | none => delimiterFallback (decodedText sampleBytes)

/-- The (encoding, delimiter) pair the spec calls `sniff`: the decode
branch `detect_delimiter` settles on, paired with the delimiter it
returns.  The source returns only the delimiter; the encoding component
records the decode branch of lines 23-28. -/
def sniff (sniffO : String → Option String) (sampleBytes : List Nat) : String × String :=
  (decodeEncoding sampleBytes, detect_delimiter sniffO sampleBytes)

/-- The fixed candidate encodings of the loader's retry loop
(testapp.py line 61). -/
def encodingCandidates : List String := ["utf-8", "latin1", "cp1252"]

/-- Embedding of the loader's retry loop (testapp.py lines 61-74).
`attempt enc sep` abstracts decoding `data_bytes` with encoding `enc` and
calling `pd.read_csv` with separator `sep` (`none` = the call on line 69
that leaves the separator to the reader's defaults; the source comment
calls this auto-detection): `.error e` models the exception the source
catches.  The accumulator is the `last_err` variable: it is overwritten
with the *outer* (sniffed-separator) exception `e` whenever both attempts
for an encoding fail (line 72), and reported when the loop exhausts
(line 74). -/
def tryEncodings (attempt : String → Option String → Except String DFrame)
    (delim : String) : List String → Option String → Except (Option String) DFrame
  | [], lastErr => .error lastErr
  | enc :: rest, _lastErr =>
    match attempt enc (some delim) with
    | .ok df => .ok df
    | .error e =>
      match attempt enc none with
      | .ok df => .ok df
      | .error _ => tryEncodings attempt delim rest (some e)

/-- The delimiter sniffed from the first 10000 bytes of the upload
(testapp.py line 59). -/
def sniffedDelim (sniffO : String → Option String) (dataBytes : List Nat) : String :=
  detect_delimiter sniffO (dataBytes.take 10000)

/-- The delimited-text branch of `try_read_table` (testapp.py
lines 57-74). -/
def tryReadText (attempt : String → Option String → Except String DFrame)
    (sniffO : String → Option String) (dataBytes : List Nat) :
    Except (Option String) DFrame :=
  tryEncodings attempt (sniffedDelim sniffO dataBytes) encodingCandidates none

/-- The (encoding, separator) attempts of the retry loop, in the order the
source makes them: for each candidate encoding, the sniffed separator
first, then the defaults call. -/
def attemptList (attempt : String → Option String → Except String DFrame)
    (delim : String) : List String → List (Except String DFrame)
  | [] => []
  | enc :: rest => attempt enc (some delim) :: attempt enc none :: attemptList attempt delim rest

/-- The first successful outcome of a list of attempts. -/
def firstOk : List (Except String DFrame) → Option DFrame
  | [] => none
  | .ok df :: _ => some df
  | .error _ :: rest => firstOk rest

/-- Success projection of the loader result. -/
def exceptOk : Except (Option String) DFrame → Option DFrame
  | .ok df => some df
  | .error _ => none

/-- Whether an attempt failed. -/
def isErr : Except String DFrame → Bool
  | .ok _ => false
  | .error _ => true

/-- A Streamlit `UploadedFile`: name, byte content, current read
position. -/
structure UploadedFile where
  name : String
  content : List Nat
  pos : Nat
deriving DecidableEq, Repr

/-- `uploaded_file.read()` (testapp.py line 46): returns the bytes from
the current position and moves the position to the end. -/
def fileRead (f : UploadedFile) : List Nat × UploadedFile :=
  (f.content.drop f.pos, { f with pos := f.content.length })

/-- `uploaded_file.seek(0)` (testapp.py line 47). -/
def fileSeekStart (f : UploadedFile) : UploadedFile :=
  { f with pos := 0 }

/-- Embedding of `try_read_table` (testapp.py lines 41-74) with the file
object threaded as explicit state.  `excel` abstracts
`pd.read_excel` on the raw bytes. -/
def try_read_table (excel : List Nat → Except String DFrame)
    (attempt : String → Option String → Except String DFrame)
    (sniffO : String → Option String) (f : UploadedFile) :
    Except (Option String) DFrame × UploadedFile :=
  if f.name.toLower.endsWith ".xls" || f.name.toLower.endsWith ".xlsx" then
    match excel (fileRead f).1 with
    | .ok df => (.ok df, fileSeekStart (fileRead f).2)
    | .error e => (.error (some ("Excel read error: " ++ e)), fileSeekStart (fileRead f).2)
  else
    (tryReadText attempt sniffO (fileRead f).1, fileSeekStart (fileRead f).2)

lemma exceptOk_tryEncodings (attempt : String → Option String → Except String DFrame)
    (delim : String) : ∀ (encs : List String) (lastErr : Option String),
    exceptOk (tryEncodings attempt delim encs lastErr) = firstOk (attemptList attempt delim encs) := by
  intro encs
  induction encs with
  | nil => intro lastErr; rfl
  | cons enc rest ih =>
    intro lastErr
    unfold tryEncodings attemptList
    rcases h1 : attempt enc (some delim) with e | df
    · rcases h2 : attempt enc none with e2 | df2
      · simp [firstOk, ih]
      · simp [firstOk, exceptOk]
    · simp [firstOk, exceptOk]

lemma firstOk_none_iff_all_err : ∀ (l : List (Except String DFrame)),
    firstOk l = none ↔ l.all isErr = true := by
  intro l
  induction l with
  | nil => simp [firstOk]
  | cons a rest ih =>
    rcases a with e | df
    · simp [firstOk, isErr, ih]
    · simp [firstOk, isErr]

lemma tryEncodings_all_err (attempt : String → Option String → Except String DFrame)
    (delim : String) (e : String)
    (hall : (attemptList attempt delim encodingCandidates).all isErr = true)
    (hlast : attempt "cp1252" (some delim) = Except.error e) :
    tryEncodings attempt delim encodingCandidates none = Except.error (some e) := by
  unfold encodingCandidates at hall ⊢
  unfold attemptList at hall
  simp [List.all, Bool.and_eq_true] at hall
  obtain ⟨h1, h2, h3, h4, h5, h6⟩ := hall
  rcases ha1 : attempt "utf-8" (some delim) with e1 | d1
  case ok => rw [ha1] at h1; simp [isErr] at h1
  rcases ha2 : attempt "utf-8" none with e2 | d2
  case ok => rw [ha2] at h2; simp [isErr] at h2
  rcases ha3 : attempt "latin1" (some delim) with e3 | d3
  case ok => rw [ha3] at h3; simp [isErr] at h3
  rcases ha4 : attempt "latin1" none with e4 | d4
  case ok => rw [ha4] at h4; simp [isErr] at h4
  rcases ha6 : attempt "cp1252" none with e6 | d6
  case ok => rw [ha6] at h6; simp [isErr] at h6
  simp [tryEncodings, ha1, ha2, ha3, ha4, hlast, ha6]

/-- C2 (amended): the text loader iterates the fixed encodings `utf-8`,
`latin1`, `cp1252` in order, trying for each the sniffed delimiter first
and then the reader's default separator handling, and succeeds exactly
with the first successful attempt in that order; any returned load error
implies every candidate combination failed, in which case the error
carried is the one from the *sniffed-delimiter* attempt of the last
encoding `cp1252` (not from the chronologically last, default-separator
attempt). -/
theorem tryReadText_retry_policy (attempt : String → Option String → Except String DFrame)
    (sniffO : String → Option String) (dataBytes : List Nat) :
    (∀ df, tryReadText attempt sniffO dataBytes = Except.ok df ↔
        firstOk (attemptList attempt (sniffedDelim sniffO dataBytes) encodingCandidates) = some df)
    ∧ (∀ eo, tryReadText attempt sniffO dataBytes = Except.error eo →
        (attemptList attempt (sniffedDelim sniffO dataBytes) encodingCandidates).all isErr = true)
    ∧ (∀ e, (attemptList attempt (sniffedDelim sniffO dataBytes) encodingCandidates).all isErr = true →
        attempt "cp1252" (some (sniffedDelim sniffO dataBytes)) = Except.error e →
        tryReadText attempt sniffO dataBytes = Except.error (some e)) := by
  have hok := exceptOk_tryEncodings attempt (sniffedDelim sniffO dataBytes) encodingCandidates none
  refine ⟨?_, ?_, ?_⟩
  · intro df
    constructor
    · intro h
      rw [← hok]
      unfold tryReadText at h
      rw [h]
      rfl
    · intro h
      rw [← hok] at h
      unfold tryReadText
      rcases hres : tryEncodings attempt (sniffedDelim sniffO dataBytes) encodingCandidates none with eo | df2
      · rw [hres] at h; simp [exceptOk] at h
      · rw [hres] at h; simp [exceptOk] at h; rw [h]
  · intro eo h
    rw [← firstOk_none_iff_all_err, ← hok]
    unfold tryReadText at h
    rw [h]
    rfl
  · intro e hall hlast
    unfold tryReadText
    exact tryEncodings_all_err attempt (sniffedDelim sniffO dataBytes) e hall hlast

/-- An attempt oracle on which every (encoding, separator) combination
fails, with distinguishable error messages. -/
def attemptAllFail : String → Option String → Except String DFrame := fun enc sep =>
  match sep with
  | some _ => .error ("sep-" ++ enc)
  | none => .error ("auto-" ++ enc)

/-- An attempt oracle whose first combination (utf-8, sniffed delimiter)
fails and whose second (utf-8, default separators) succeeds. -/
def attemptSecondOk : String → Option String → Except String DFrame := fun enc sep =>
  match enc, sep with
  | "utf-8", none => .ok ⟨["a"], []⟩
  | _, _ => .error "boom"

/-- Witness for C2 (amended): the loader returns the first successful
attempt's table, and on total failure the error of the cp1252
sniffed-delimiter attempt. -/
theorem tryReadText_retry_policy_witness :
    tryReadText attemptSecondOk (fun _ => none) [] = Except.ok (DFrame.mk ["a"] [])
    ∧ tryReadText attemptAllFail (fun _ => none) [] = Except.error (some "sep-cp1252") := by
  constructor
  · exact ((tryReadText_retry_policy attemptSecondOk (fun _ => none) []).1 ⟨["a"], []⟩).mpr rfl
  · exact (tryReadText_retry_policy attemptAllFail (fun _ => none) []).2.2 "sep-cp1252" rfl rfl

/-- Counterexample for C2 as stated: when every combination fails, the
error carried by the loader is the error of the cp1252 sniffed-delimiter
attempt (`sep-cp1252`), not the error of the last combination attempted,
which is cp1252 with default separator handling (`auto-cp1252`). -/
theorem tryReadText_last_error_counterexample :
    tryReadText attemptAllFail (fun _ => none) [] = Except.error (some "sep-cp1252")
    ∧ attemptAllFail "cp1252" none = Except.error "auto-cp1252"
    ∧ (attemptList attemptAllFail (sniffedDelim (fun _ => none) []) encodingCandidates).getLast?
        = some (Except.error "auto-cp1252")
    ∧ "sep-cp1252" ≠ "auto-cp1252" := by
  refine ⟨rfl, rfl, rfl, by decide⟩

/-- C10: `try_read_table` does not mutate the uploaded buffer: the file's
bytes and name are unchanged, the read position is reset to the start
(line 47), and a further `read()` yields the full original bytes again. -/
theorem try_read_table_preserves_upload (excel : List Nat → Except String DFrame)
    (attempt : String → Option String → Except String DFrame)
    (sniffO : String → Option String) (f : UploadedFile) :
    ((try_read_table excel attempt sniffO f).2).content = f.content
    ∧ ((try_read_table excel attempt sniffO f).2).name = f.name
    ∧ ((try_read_table excel attempt sniffO f).2).pos = 0
    ∧ (fileRead ((try_read_table excel attempt sniffO f).2)).1 = f.content := by
  unfold try_read_table fileRead fileSeekStart
  by_cases h : (f.name.toLower.endsWith ".xls" || f.name.toLower.endsWith ".xlsx") = true
  · simp only [h, if_true]
    rcases hex : excel (f.content.drop f.pos) with e | df <;> simp
  · simp only [h, if_false, Bool.not_eq_true] at *
    simp [h]

/-- C5: when the dialect-sniffing heuristic yields no confident dialect,
the delimiter detector checks the decoded sample for `,` `;` tab `|` in
that priority order and returns the first one present, defaulting to `,`
when none is. -/
theorem detect_delimiter_fallback_priority (sniffO : String → Option String)
    (sampleBytes : List Nat) (h : sniffO (snifferSample sampleBytes) = none) :
    detect_delimiter sniffO sampleBytes =
      (if strContainsChar (decodedText sampleBytes) ',' then ","
       else if strContainsChar (decodedText sampleBytes) ';' then ";"
       else if strContainsChar (decodedText sampleBytes) '\t' then "\t"
       else if strContainsChar (decodedText sampleBytes) '|' then "|"
       else ",") := by
  unfold detect_delimiter
  rw [h]
  unfold delimiterFallback fallbackDelimChars
  by_cases h1 : strContainsChar (decodedText sampleBytes) ','
  · simp [List.find?, h1]
  · by_cases h2 : strContainsChar (decodedText sampleBytes) ';'
    · simp [List.find?, h1, h2]
    · by_cases h3 : strContainsChar (decodedText sampleBytes) '\t'
      · simp [List.find?, h1, h2, h3]
      · by_cases h4 : strContainsChar (decodedText sampleBytes) '|'
        · simp [List.find?, h1, h2, h3, h4]
        · simp [List.find?, h1, h2, h3, h4]

/-- The bytes of the ASCII sample `id;time;action` (spec scenario for
delimiter sniffing). -/
def semicolonSampleBytes : List Nat :=
  [105, 100, 59, 116, 105, 109, 101, 59, 97, 99, 116, 105, 111, 110]

/-- Witness for C5: on the semicolon-delimited header `id;time;action`
with no comma anywhere, a failed sniff resolves the delimiter to `;`. -/
theorem detect_delimiter_fallback_priority_witness :
    detect_delimiter (fun _ => none) semicolonSampleBytes = ";" := by
  have h := detect_delimiter_fallback_priority (fun _ => none) semicolonSampleBytes rfl
  rw [h]
  decide

/-- C6: the sniffing step never raises (every branch of the embedding
returns a value; all oracle failures divert to the fallback path) and
always yields an encoding and a delimiter: the encoding is `utf-8` or
`latin1`, a confidently sniffed delimiter is returned as-is, a failed
sniff yields one of the four fallback delimiters (which include the
default `,`), and the empty input yields (`utf-8`, `,`). -/
theorem sniff_total_and_defaults (sniffO : String → Option String)
    (hempty : sniffO "" = none) :
    sniff sniffO [] = ("utf-8", ",")
    ∧ (∀ bytes, (sniff sniffO bytes).1 = "utf-8" ∨ (sniff sniffO bytes).1 = "latin1")
    ∧ (∀ bytes d, sniffO (snifferSample bytes) = some d → (sniff sniffO bytes).2 = d)
    ∧ (∀ bytes, sniffO (snifferSample bytes) = none →
        (sniff sniffO bytes).2 ∈ [",", ";", "\t", "|"]) := by
  refine ⟨?_, ?_, ?_, ?_⟩
  · have hs : snifferSample [] = "" := by decide
    unfold sniff detect_delimiter
    rw [hs, hempty]
    decide
  · intro bytes
    unfold sniff decodeEncoding
    cases utf8Decode bytes <;> simp
  · intro bytes d hd
    unfold sniff detect_delimiter
    rw [hd]
  · intro bytes hnone
    unfold sniff detect_delimiter
    rw [hnone]
    unfold delimiterFallback
    rcases hfind : (fallbackDelimChars.find? (fun c => strContainsChar (decodedText bytes) c)) with _ | c
    · simp
    · have hc : c ∈ fallbackDelimChars := List.mem_of_find?_eq_some hfind
      fin_cases hc <;> simp

/-- Witness for C6: with a sniffer oracle that always fails, the empty
buffer sniffs to encoding `utf-8` and delimiter `,`. -/
theorem sniff_total_and_defaults_witness :
    sniff (fun _ => none) [] = ("utf-8", ",") :=
  (sniff_total_and_defaults (fun _ => none) rfl).1

/-- Python whitespace as used by `str.strip` (space, tab, newline,
carriage return, vertical tab, form feed). -/
def isPyWhitespace (c : Char) : Bool :=
  c = ' ' || c = '\t' || c = '\n' || c = '\r' || c = '\x0b' || c = '\x0c'

/-- Python `str.strip()`: remove leading and trailing whitespace. -/
def pyStrip (s : String) : String :=
  String.mk (((s.data.dropWhile isPyWhitespace).reverse.dropWhile isPyWhitespace).reverse)

/-- `astype(str)` on a cell (testapp.py lines 138-139): pandas renders a
missing value as the string `nan`. -/
def cellToStr : Cell → String
  | .null => "nan"
  | .str s => s

/-- A post-mapping row, carrying the three canonical columns.  The
column-presence check of `standardize_df` (testapp.py lines 131-132) is
discharged by this structure; rows reaching `standardize_df` in the
script always carry the three columns because the mapping step renamed
them. -/
structure SrcRow where
  customerID : Cell
  timestamp : Cell
  activity : Cell
deriving DecidableEq, Repr

/-- A standardized row of the combined table.  `Ts` is the abstract type
of parsed pandas datetimes. -/
structure UnifiedRecord (Ts : Type) where
  customerID : String
  timestamp : Option Ts
  activity : String
  source : String
deriving DecidableEq, Repr

/-- `pd.to_datetime(col, errors="coerce")` on one cell (testapp.py
line 136): a missing value stays missing, a string parses via the
best-effort parser `parse` or coerces to missing (`NaT`), never
raising. -/
def coerceTimestamp {Ts : Type} (parse : String → Option Ts) : Cell → Option Ts
  | .null => none
  | .str s => parse s

/-- The per-row action of `standardize_df` (testapp.py lines 129-140):
tag the source label, coerce the timestamp, trim CustomerID and Activity
after `astype(str)`. -/
def standardizeRow {Ts : Type} (parse : String → Option Ts) (label : String)
    (r : SrcRow) : UnifiedRecord Ts :=
  { customerID := pyStrip (cellToStr r.customerID)
    timestamp := coerceTimestamp parse r.timestamp
    activity := pyStrip (cellToStr r.activity)
    source := label }

/-- Embedding of `standardize_df` (testapp.py lines 129-140): the
standardization is row-wise; no row is added or removed. -/
def standardize_df {Ts : Type} (parse : String → Option Ts)
    (rows : List SrcRow) (label : String) : List (UnifiedRecord Ts) :=
  rows.map (standardizeRow parse label)

/-- The upload loop of testapp.py lines 91-103: the fixed iteration order
Website, Mobile App, Store, keeping only the sources with a file
uploaded. -/
def uploadedItems (web app store : Option (List SrcRow)) :
    List (String × List SrcRow) :=
  (match web with | some t => [("Website", t)] | none => [])
    ++ (match app with | some t => [("Mobile App", t)] | none => [])
    ++ (match store with | some t => [("Store", t)] | none => [])

/-- The merged table (testapp.py lines 142-155): standardize each
uploaded table with its label and concatenate
(`pd.concat(clean_frames, ignore_index=True)`). -/
def combinedOf {Ts : Type} (parse : String → Option Ts)
    (web app store : Option (List SrcRow)) : List (UnifiedRecord Ts) :=
  ((uploadedItems web app store).map (fun it => standardize_df parse it.2 it.1)).flatten

/-- A concrete trivial datetime parser used by witnesses. -/
def noParse : String → Option Unit := fun _ => none

/-- C4: a row whose Timestamp cell does not parse is retained (row count
unchanged) and standardizes to a record with a null Timestamp, trimmed
CustomerID and Activity, and the given source label. -/
theorem standardize_unparseable_timestamp {Ts : Type} (parse : String → Option Ts)
    (label : String) (rows : List SrcRow) (i : Nat) (r : SrcRow) (s : String)
    (hr : rows[i]? = some r) (hts : r.timestamp = Cell.str s) (hp : parse s = none) :
    (standardize_df parse rows label).length = rows.length
    ∧ (standardize_df parse rows label)[i]? =
        some { customerID := pyStrip (cellToStr r.customerID)
               timestamp := none
               activity := pyStrip (cellToStr r.activity)
               source := label } := by
  constructor
  · simp [standardize_df]
  · simp [standardize_df, List.getElem?_map, hr, standardizeRow, coerceTimestamp, hts, hp]

/-- Witness for C4: a Store row with unparseable timestamp `N/A` is kept,
with CustomerID and Activity trimmed and Timestamp null. -/
theorem standardize_unparseable_timestamp_witness :
    (standardize_df noParse [⟨Cell.str "c1", Cell.str "N/A", Cell.str " buy "⟩] "Store").length = 1
    ∧ (standardize_df noParse [⟨Cell.str "c1", Cell.str "N/A", Cell.str " buy "⟩] "Store")[0]? =
        some { customerID := "c1", timestamp := none, activity := "buy", source := "Store" } := by
  have h := standardize_unparseable_timestamp noParse "Store"
    [⟨Cell.str "c1", Cell.str "N/A", Cell.str " buy "⟩] 0
    ⟨Cell.str "c1", Cell.str "N/A", Cell.str " buy "⟩ "N/A" rfl rfl rfl
  exact ⟨h.1, h.2⟩

/-- Counterexample for C1 as stated: a Website row whose CustomerID is
the empty string after trimming is not dropped — it appears in the merged
table. -/
theorem combined_keeps_empty_customer_counterexample :
    combinedOf noParse (some [⟨Cell.str "", Cell.str "2024-01-01", Cell.str "click"⟩]) none none
      = [{ customerID := "", timestamp := none, activity := "click", source := "Website" }]
    ∧ ("" : String).length = 0 := by
  exact ⟨rfl, rfl⟩

/-- C1 (amended): standardization and merging drop no rows at all — the
merged table has exactly one record per uploaded row, every standardized
row appears in its standardized table, and a null CustomerID is rendered
as the string `nan` (an empty or whitespace CustomerID stays as the
trimmed string); such rows appear in the UnifiedTable. -/
theorem standardize_merge_no_drop {Ts : Type} (parse : String → Option Ts)
    (web app store : Option (List SrcRow)) :
    (combinedOf parse web app store).length
      = ((uploadedItems web app store).map (fun it => it.2.length)).sum
    ∧ (∀ label rows r, r ∈ rows → standardizeRow parse label r ∈ standardize_df parse rows label)
    ∧ (∀ label r, r.customerID = Cell.null → (standardizeRow parse label r).customerID = "nan")
    ∧ (∀ label r s, r.customerID = Cell.str s → (standardizeRow parse label r).customerID = pyStrip s) := by
  refine ⟨?_, ?_, ?_, ?_⟩
  · unfold combinedOf
    rw [List.length_flatten, List.map_map]
    have hf : (List.length ∘ fun it : String × List SrcRow => standardize_df parse it.2 it.1)
        = fun it : String × List SrcRow => it.2.length := by
      funext it
      simp [standardize_df]
    rw [hf]
  · intro label rows r hr
    exact List.mem_map_of_mem _ hr
  · intro label r h
    simp [standardizeRow, h, cellToStr]
    rfl
  · intro label r s h
    simp [standardizeRow, h, cellToStr]

/-- Witness for C1 (amended): a single Website row with all cells null is
kept in the merged table, its CustomerID rendered as `nan`. -/
theorem standardize_merge_no_drop_witness :
    (combinedOf noParse (some [⟨Cell.null, Cell.null, Cell.null⟩]) none none).length = 1
    ∧ (standardizeRow noParse "Website" ⟨Cell.null, Cell.null, Cell.null⟩).customerID = "nan" := by
  have h := standardize_merge_no_drop noParse (some [⟨Cell.null, Cell.null, Cell.null⟩]) none none
  exact ⟨h.1, h.2.2.1 "Website" ⟨Cell.null, Cell.null, Cell.null⟩ rfl⟩

lemma mem_standardize_source {Ts : Type} (parse : String → Option Ts)
    (rows : List SrcRow) (label : String) :
    ∀ u ∈ standardize_df parse rows label, u.source = label := by
  intro u hu
  simp [standardize_df] at hu
  obtain ⟨r, _, rfl⟩ := hu
  rfl

lemma append3_source_index {Ts : Type} (L1 L2 L3 : List (UnifiedRecord Ts))
    (l1 l2 l3 : String)
    (h1 : ∀ u ∈ L1, u.source = l1) (h2 : ∀ u ∈ L2, u.source = l2)
    (h3 : ∀ u ∈ L3, u.source = l3)
    (k : Nat) (u : UnifiedRecord Ts) (hu : (L1 ++ L2 ++ L3)[k]? = some u) :
    u.source =
      if k < L1.length then l1
      else if k < L1.length + L2.length then l2
      else l3 := by
  by_cases hk1 : k < L1.length
  · rw [List.getElem?_append_left (by simp [List.length_append]; omega),
      List.getElem?_append_left hk1] at hu
    rw [if_pos hk1]
    exact h1 u (List.getElem?_mem hu)
  · push_neg at hk1
    by_cases hk2 : k < L1.length + L2.length
    · rw [List.getElem?_append_left (by simp [List.length_append]; omega),
        List.getElem?_append_right hk1] at hu
      rw [if_neg (by omega), if_pos hk2]
      exact h2 u (List.getElem?_mem hu)
    · push_neg at hk2
      rw [List.getElem?_append_right (by simp [List.length_append]; omega)] at hu
      rw [if_neg (by omega), if_neg (by omega)]
      exact h3 u (List.getElem?_mem hu)

/-- C3: with all three sources uploaded, the merged table is the
concatenation, in the fixed order Website, Mobile App, Store, of the
standardized tables (hence preserves each source's internal row order),
and in it every Website record precedes every Mobile App record, every
Mobile App record precedes every Store record, and every Website record
precedes every Store record. -/
theorem combined_source_order {Ts : Type} (parse : String → Option Ts)
    (wT aT sT : List SrcRow) :
    combinedOf parse (some wT) (some aT) (some sT)
      = standardize_df parse wT "Website" ++ standardize_df parse aT "Mobile App"
          ++ standardize_df parse sT "Store"
    ∧ (∀ (i j : Nat) (u v : UnifiedRecord Ts),
        (combinedOf parse (some wT) (some aT) (some sT))[i]? = some u →
        (combinedOf parse (some wT) (some aT) (some sT))[j]? = some v →
        u.source = "Website" → v.source = "Mobile App" → i < j)
    ∧ (∀ (i j : Nat) (u v : UnifiedRecord Ts),
        (combinedOf parse (some wT) (some aT) (some sT))[i]? = some u →
        (combinedOf parse (some wT) (some aT) (some sT))[j]? = some v →
        u.source = "Mobile App" → v.source = "Store" → i < j)
    ∧ (∀ (i j : Nat) (u v : UnifiedRecord Ts),
        (combinedOf parse (some wT) (some aT) (some sT))[i]? = some u →
        (combinedOf parse (some wT) (some aT) (some sT))[j]? = some v →
        u.source = "Website" → v.source = "Store" → i < j) := by
  have heq : combinedOf parse (some wT) (some aT) (some sT)
      = standardize_df parse wT "Website" ++ standardize_df parse aT "Mobile App"
          ++ standardize_df parse sT "Store" := by
    simp [combinedOf, uploadedItems]
  have hchar : ∀ k u, (combinedOf parse (some wT) (some aT) (some sT))[k]? = some u →
      u.source =
        if k < wT.length then "Website"
        else if k < wT.length + aT.length then "Mobile App"
        else "Store" := by
    intro k u hu
    rw [heq] at hu
    have := append3_source_index (standardize_df parse wT "Website")
      (standardize_df parse aT "Mobile App") (standardize_df parse sT "Store")
      "Website" "Mobile App" "Store"
      (mem_standardize_source parse wT "Website")
      (mem_standardize_source parse aT "Mobile App")
      (mem_standardize_source parse sT "Store") k u hu
    simpa [standardize_df] using this
  refine ⟨heq, ?_, ?_, ?_⟩
  · intro i j u v hu hv hsu hsv
    have hcu := hchar i u hu
    have hcv := hchar j v hv
    rw [hsu] at hcu
    rw [hsv] at hcv
    by_cases h1 : i < wT.length
    · by_cases h2 : j < wT.length
      · rw [if_pos h2] at hcv; exact absurd hcv (by decide)
      · by_cases h3 : j < wT.length + aT.length
        · omega
        · rw [if_neg h2, if_neg h3] at hcv; exact absurd hcv (by decide)
    · rw [if_neg h1] at hcu
      by_cases h3 : i < wT.length + aT.length
      · rw [if_pos h3] at hcu; exact absurd hcu (by decide)
      · rw [if_neg h3] at hcu; exact absurd hcu (by decide)
  · intro i j u v hu hv hsu hsv
    have hcu := hchar i u hu
    have hcv := hchar j v hv
    rw [hsu] at hcu
    rw [hsv] at hcv
    by_cases h1 : i < wT.length
    · rw [if_pos h1] at hcu; exact absurd hcu (by decide)
    · by_cases h2 : i < wT.length + aT.length
      · by_cases h3 : j < wT.length
        · rw [if_pos h3] at hcv; exact absurd hcv (by decide)
        · by_cases h4 : j < wT.length + aT.length
          · rw [if_neg h3, if_pos h4] at hcv; exact absurd hcv (by decide)
          · omega
      · rw [if_neg h1, if_neg h2] at hcu; exact absurd hcu (by decide)
  · intro i j u v hu hv hsu hsv
    have hcu := hchar i u hu
    have hcv := hchar j v hv
    rw [hsu] at hcu
    rw [hsv] at hcv
    by_cases h1 : i < wT.length
    · by_cases h3 : j < wT.length
      · rw [if_pos h3] at hcv; exact absurd hcv (by decide)
      · by_cases h4 : j < wT.length + aT.length
        · rw [if_neg h3, if_pos h4] at hcv; exact absurd hcv (by decide)
        · omega
    · rw [if_neg h1] at hcu
      by_cases h2 : i < wT.length + aT.length
      · rw [if_pos h2] at hcu; exact absurd hcu (by decide)
      · rw [if_neg h2] at hcu; exact absurd hcu (by decide)

/-- Witness for C3: three one-row uploads merge to Website row, then
Mobile App row, then Store row, and the Website record's index precedes
the Mobile App record's. -/
theorem combined_source_order_witness :
    combinedOf noParse (some [⟨Cell.str "c1", Cell.null, Cell.str "view"⟩])
        (some [⟨Cell.str "c2", Cell.null, Cell.str "tap"⟩])
        (some [⟨Cell.str "c3", Cell.null, Cell.str "buy"⟩])
      = [{ customerID := "c1", timestamp := none, activity := "view", source := "Website" },
         { customerID := "c2", timestamp := none, activity := "tap", source := "Mobile App" },
         { customerID := "c3", timestamp := none, activity := "buy", source := "Store" }]
    ∧ (0 : Nat) < 1 := by
  have h := combined_source_order noParse
    [⟨Cell.str "c1", Cell.null, Cell.str "view"⟩]
    [⟨Cell.str "c2", Cell.null, Cell.str "tap"⟩]
    [⟨Cell.str "c3", Cell.null, Cell.str "buy"⟩]
  refine ⟨h.1, ?_⟩
  exact h.2.1 0 1
    { customerID := "c1", timestamp := none, activity := "view", source := "Website" }
    { customerID := "c2", timestamp := none, activity := "tap", source := "Mobile App" }
    rfl rfl rfl rfl

/-- Errors of the manual column-mapping step.  The source has a single
failure mode: a missing selection halts the run (testapp.py
lines 119-121); no column-not-found failure exists, because selections
are drawn from the table's own column list and `DataFrame.rename`
silently ignores absent names. -/
inductive MappingError where
  | missingSelection
deriving DecidableEq, Repr

/-- The column-rename function of testapp.py line 123: the Python dict
literal inserts `cust`, then `ts`, then `act`, so on duplicate selections
the later insertion wins — hence `act` is checked first. -/
def renameFn (cust ts act : String) (col : String) : String :=
  if col = act then "Activity"
  else if col = ts then "Timestamp"
  else if col = cust then "CustomerID"
  else col

/-- Embedding of the manual mapping step (testapp.py lines 115-124):
`--Select--` is the unselected sentinel; any unselected choice halts
(`st.stop()`), modeled as a `missingSelection` error; otherwise the
columns are renamed via `DataFrame.rename`. -/
def applyManualMapping (cols : List String) (cust ts act : String) :
    Except MappingError (List String) :=
  if cust = "--Select--" ∨ ts = "--Select--" ∨ act = "--Select--" then
    Except.error MappingError.missingSelection
  else
    Except.ok (cols.map (renameFn cust ts act))

/-- C7 (amended): the manual mapping step renames the three chosen
columns to CustomerID, Timestamp, Activity and fails with a
missing-selection error whenever any of the three selections is
unspecified; a selected name absent from the table is not rejected — the
rename leaves all unselected columns unchanged (there is no
column-not-found error). -/
theorem applyManualMapping_spec (cols : List String) (cust ts act : String) :
    ((cust = "--Select--" ∨ ts = "--Select--" ∨ act = "--Select--") →
        applyManualMapping cols cust ts act = Except.error MappingError.missingSelection)
    ∧ (cust ≠ "--Select--" → ts ≠ "--Select--" → act ≠ "--Select--" →
        applyManualMapping cols cust ts act = Except.ok (cols.map (renameFn cust ts act)))
    ∧ (cust ≠ ts → cust ≠ act → renameFn cust ts act cust = "CustomerID")
    ∧ (ts ≠ act → renameFn cust ts act ts = "Timestamp")
    ∧ renameFn cust ts act act = "Activity"
    ∧ (∀ c, c ≠ cust → c ≠ ts → c ≠ act → renameFn cust ts act c = c) := by
  refine ⟨?_, ?_, ?_, ?_, ?_, ?_⟩
  · intro h
    simp [applyManualMapping, h]
  · intro h1 h2 h3
    rw [applyManualMapping, if_neg]
    simp [h1, h2, h3]
  · intro h1 h2
    simp [renameFn, h1, h2]
  · intro h1
    simp [renameFn, h1]
  · simp [renameFn]
  · intro c h1 h2 h3
    simp [renameFn, h1, h2, h3]

/-- Witness for C7 (amended): an unselected CustomerID choice fails with
the missing-selection error; a full selection renames the three columns
to the canonical names. -/
theorem applyManualMapping_spec_witness :
    applyManualMapping ["u", "t", "a"] "--Select--" "t" "a"
        = Except.error MappingError.missingSelection
    ∧ applyManualMapping ["u", "t", "a"] "u" "t" "a"
        = Except.ok ["CustomerID", "Timestamp", "Activity"] := by
  constructor
  · exact (applyManualMapping_spec ["u", "t", "a"] "--Select--" "t" "a").1 (Or.inl rfl)
  · exact (applyManualMapping_spec ["u", "t", "a"] "u" "t" "a").2.1
      (by decide) (by decide) (by decide)

/-- Counterexample for C7 as stated: selecting a column name absent from
the table does not produce a column-not-found error — the mapping
succeeds and the absent name is silently ignored by the rename. -/
theorem applyManualMapping_no_column_check_counterexample :
    ("X" ∉ ["a", "b", "c"])
    ∧ applyManualMapping ["a", "b", "c"] "X" "b" "c"
        = Except.ok ["a", "Timestamp", "Activity"] := by
  exact ⟨by decide, rfl⟩

/-- A canonical field of the column-mapping heuristic. -/
inductive CanonicalField where
  | customerID : CanonicalField
  | timestamp : CanonicalField
  | activity : CanonicalField
deriving DecidableEq, Repr

/-- Whether `pat` occurs as a contiguous sublist of the argument
(Python's `pat in s` substring test). -/
def subListAux (pat : List Char) : List Char → Bool
  | [] => pat.isEmpty
  | c :: rest => pat.isPrefixOf (c :: rest) || subListAux pat rest

/-- Python `pat in s` substring containment on strings. -/
def strContainsSub (s pat : String) : Bool :=
  subListAux pat.data s.data

/-- Python `str.lower()` (ASCII-relevant part). -/
def pyLower (s : String) : String :=
  String.mk (s.data.map Char.toLower)

/-- Modelled from the spec: the heuristic `detectMapping` per-column rule
(spec section 4.3, Contract A).  `src/testapp.py` contains only the
manual-mapping variant; the heuristic detector exists in repository
variants not included under src/.  Per the spec: lower-case the column
name and test substring membership against three keyword sets in priority
order — cust/id/user to CustomerID, else time/date to Timestamp, else
activity/action/event to Activity. -/
def classifyColumn (name : String) : Option CanonicalField :=
  if strContainsSub (pyLower name) "cust" || strContainsSub (pyLower name) "id"
      || strContainsSub (pyLower name) "user" then
    some CanonicalField.customerID
  else if strContainsSub (pyLower name) "time" || strContainsSub (pyLower name) "date" then
    some CanonicalField.timestamp
  else if strContainsSub (pyLower name) "activity" || strContainsSub (pyLower name) "action"
      || strContainsSub (pyLower name) "event" then
    some CanonicalField.activity
  else none

/-- A detected column mapping: for each canonical field, the chosen source
column, if any. -/
structure ColumnMapping where
  customerID : Option String
  timestamp : Option String
  activity : Option String
deriving DecidableEq, Repr

/-- Modelled from the spec: `detectMapping` folds the per-column rule over
the columns in order; a later column overwrites an earlier mapping for the
same canonical field (spec section 4.3: last match by
column-iteration-order is kept). -/
def detectMapping (cols : List String) : ColumnMapping :=
  cols.foldl (fun m c =>
    match classifyColumn c with
    | some CanonicalField.customerID => { m with customerID := some c }
    | some CanonicalField.timestamp => { m with timestamp := some c }
    | some CanonicalField.activity => { m with activity := some c }
    | none => m) ⟨none, none, none⟩

/-- C9: the heuristic lower-cases the column name and tests the three
keyword sets in priority order — a name containing cust, id or user maps
to CustomerID regardless of the other sets; otherwise time or date maps
to Timestamp; otherwise activity, action or event maps to Activity;
otherwise the column maps to nothing; and on a single column
`detectMapping` records that column for exactly the canonical field the
first matching rule selected. -/
theorem detectMapping_keyword_priority (name : String) :
    ((strContainsSub (pyLower name) "cust" || strContainsSub (pyLower name) "id"
        || strContainsSub (pyLower name) "user") = true →
      classifyColumn name = some CanonicalField.customerID)
    ∧ ((strContainsSub (pyLower name) "cust" || strContainsSub (pyLower name) "id"
        || strContainsSub (pyLower name) "user") = false →
      (strContainsSub (pyLower name) "time" || strContainsSub (pyLower name) "date") = true →
      classifyColumn name = some CanonicalField.timestamp)
    ∧ ((strContainsSub (pyLower name) "cust" || strContainsSub (pyLower name) "id"
        || strContainsSub (pyLower name) "user") = false →
      (strContainsSub (pyLower name) "time" || strContainsSub (pyLower name) "date") = false →
      (strContainsSub (pyLower name) "activity" || strContainsSub (pyLower name) "action"
        || strContainsSub (pyLower name) "event") = true →
      classifyColumn name = some CanonicalField.activity)
    ∧ ((strContainsSub (pyLower name) "cust" || strContainsSub (pyLower name) "id"
        || strContainsSub (pyLower name) "user") = false →
      (strContainsSub (pyLower name) "time" || strContainsSub (pyLower name) "date") = false →
      (strContainsSub (pyLower name) "activity" || strContainsSub (pyLower name) "action"
        || strContainsSub (pyLower name) "event") = false →
      classifyColumn name = none)
    ∧ detectMapping [name] =
        { customerID := if classifyColumn name = some CanonicalField.customerID
            then some name else none
          timestamp := if classifyColumn name = some CanonicalField.timestamp
            then some name else none
          activity := if classifyColumn name = some CanonicalField.activity
            then some name else none } := by
  refine ⟨?_, ?_, ?_, ?_, ?_⟩
  · intro h
    simp [classifyColumn, h]
  · intro h1 h2
    simp [classifyColumn, h1, h2]
  · intro h1 h2 h3
    simp [classifyColumn, h1, h2, h3]
  · intro h1 h2 h3
    simp [classifyColumn, h1, h2, h3]
  · rcases hc : classifyColumn name with _ | f
    · simp [detectMapping, List.foldl, hc]
    · cases f <;> simp [detectMapping, List.foldl, hc]

/-- Witness for C9: `user_action_time` matches the CustomerID keyword set
(via `user`) and also the Timestamp and Activity sets, and the first
matching rule wins: it classifies as CustomerID. -/
theorem detectMapping_keyword_priority_witness :
    strContainsSub (pyLower "user_action_time") "user" = true
    ∧ strContainsSub (pyLower "user_action_time") "action" = true
    ∧ strContainsSub (pyLower "user_action_time") "time" = true
    ∧ classifyColumn "user_action_time" = some CanonicalField.customerID := by
  refine ⟨by decide, by decide, by decide, ?_⟩
  exact (detectMapping_keyword_priority "user_action_time").1 (by decide)

/-- The default NA sentinels of the table reader (`pd.read_csv`
`na_values`): a field equal to one of these re-loads as a missing
value. -/
def naValues : List String :=
  ["", "#N/A", "#N/A N/A", "#NA", "-1.#IND", "-1.#QNAN", "-NaN", "-nan",
   "1.#IND", "1.#QNAN", "<NA>", "N/A", "NA", "NULL", "NaN", "None",
   "n/a", "nan", "null"]

/-- Characters that force quoting on write (`to_csv` minimal quoting:
the delimiter, the quote char, the line terminator). -/
def needsQuoteChar (c : Char) : Bool :=
  c = ',' || c = '"' || c = '\n' || c = '\r'

/-- A character that serializes verbatim and cannot disturb the
record/line structure. -/
def plainChar (c : Char) : Bool :=
  !needsQuoteChar c

/-- Double each quote character (the writer's quote escaping). -/
def escapeQuotes : List Char → List Char
  | [] => []
  | c :: rest => if c = '"' then '"' :: '"' :: escapeQuotes rest else c :: escapeQuotes rest

/-- Serialize one field (`to_csv` minimal quoting). -/
def encodeField (s : String) : List Char :=
  if s.data.any needsQuoteChar then '"' :: (escapeQuotes s.data ++ ['"']) else s.data

/-- Serialize one cell: a missing value writes as the empty field. -/
def cellField : Cell → List Char
  | .null => []
  | .str s => encodeField s

/-- Join fields with the comma delimiter. -/
def encodeRecord : List (List Char) → List Char
  | [] => []
  | [f] => f
  | f :: fs => f ++ ',' :: encodeRecord fs

/-- Serialize the data rows, one line each, each terminated by a
newline. -/
def rowsChars : List (List Cell) → List Char
  | [] => []
  | r :: rs => encodeRecord (r.map cellField) ++ '\n' :: rowsChars rs

/-- `combined.to_csv(index=False)` (testapp.py line 206) at the character
level: header line then data lines, comma-delimited, each line terminated
by a newline.  Text cells only — numeric dtype rendering is outside this
model. -/
def toCsvChars (df : DFrame) : List Char :=
  encodeRecord (df.cols.map (fun c => encodeField c)) ++ '\n' :: rowsChars df.rows

/-- Split a character stream into lines at newlines. -/
def splitLinesAux (acc : List Char) : List Char → List (List Char)
  | [] => [acc.reverse]
  | c :: rest =>
    if c = '\n' then acc.reverse :: splitLinesAux [] rest
    else splitLinesAux (c :: acc) rest

/-- Split one record line into fields at commas, honoring double-quote
quoting with doubled-quote escapes (the reader's field parsing; quoted
line breaks are outside this model, which splits lines first). -/
def splitFieldsAux : Bool → List Char → List Char → List String
  | _, acc, [] => [String.mk acc.reverse]
  | false, acc, c :: rest =>
    if c = ',' then String.mk acc.reverse :: splitFieldsAux false [] rest
    else if c = '"' then splitFieldsAux true acc rest
    else splitFieldsAux false (c :: acc) rest
  | true, acc, [c] =>
    if c = '"' then [String.mk acc.reverse]
    else [String.mk (c :: acc).reverse]
  | true, acc, c :: c2 :: rest =>
    if c = '"' then
      if c2 = '"' then splitFieldsAux true ('"' :: acc) rest
      else splitFieldsAux false acc (c2 :: rest)
    else splitFieldsAux true (c :: acc) (c2 :: rest)

/-- Parse one record line into raw field strings. -/
def parseFields (l : List Char) : List String :=
  splitFieldsAux false [] l

/-- NA conversion of one raw field (`read_csv` default `na_values`). -/
def toCell (s : String) : Cell :=
  if naValues.contains s then Cell.null else Cell.str s

/-- `pd.read_csv` on comma-delimited text (the re-load of the download
buffer, testapp.py lines 63-64): split lines (skipping blank lines, as
the reader does), take the first line as the header, parse each remaining
line into fields and NA-convert them.  `none` models the empty-data
error. -/
def readCsv (cs : List Char) : Option DFrame :=
  match (splitLinesAux [] cs).filter (fun l => !l.isEmpty) with
  | [] => none
  | h :: rs => some { cols := parseFields h
                      rows := rs.map (fun l => (parseFields l).map toCell) }

/-- A string that serializes verbatim and re-loads as itself: no
delimiter/quote/newline characters and not an NA sentinel (in particular
nonempty). -/
def plainStr (s : String) : Bool :=
  s.data.all plainChar && !(naValues.contains s)

/-- A cell that survives the round trip: missing, or a plain string. -/
def plainCell : Cell → Bool
  | .null => true
  | .str s => plainStr s

lemma string_mk_data (s : String) : String.mk s.data = s := rfl

lemma encodeField_plain (s : String) (h : s.data.all plainChar = true) :
    encodeField s = s.data := by
  have hany : s.data.any needsQuoteChar = false := by
    rw [List.any_eq_false]
    intro c hc
    have hpc := List.all_eq_true.mp h c hc
    rw [plainChar, Bool.not_eq_true'] at hpc
    simp [hpc]
  simp [encodeField, hany]

lemma needsQuote_false_facts (c : Char) (h : needsQuoteChar c = false) :
    ¬(c = ',') ∧ ¬(c = '"') ∧ ¬(c = '\n') ∧ ¬(c = '\r') := by
  rw [needsQuoteChar] at h
  simp only [Bool.or_eq_false_iff] at h
  refine ⟨?_, ?_, ?_, ?_⟩
  · simpa using h.1.1.1
  · simpa using h.1.1.2
  · simpa using h.1.2
  · simpa using h.2

lemma splitFields_passthrough :
    ∀ (f : List Char), (∀ c ∈ f, needsQuoteChar c = false) →
    ∀ (acc rest : List Char),
      splitFieldsAux false acc (f ++ rest) = splitFieldsAux false (f.reverse ++ acc) rest := by
  intro f
  induction f with
  | nil =>
    intro _ acc rest
    simp
  | cons c cs ih =>
    intro hf acc rest
    have hc := needsQuote_false_facts c (hf c (List.mem_cons_self c cs))
    have hcs : ∀ x ∈ cs, needsQuoteChar x = false :=
      fun x hx => hf x (List.mem_cons_of_mem c hx)
    simp only [List.cons_append, splitFieldsAux, if_neg hc.1, if_neg hc.2.1, List.append_eq]
    rw [ih hcs (c :: acc) rest]
    simp [List.append_assoc]

lemma parseFields_encodeRecord :
    ∀ (fields : List (List Char)), fields ≠ [] →
    (∀ f ∈ fields, ∀ c ∈ f, needsQuoteChar c = false) →
    parseFields (encodeRecord fields) = fields.map String.mk := by
  intro fields
  induction fields with
  | nil =>
    intro h
    exact absurd rfl h
  | cons f fs ih =>
    intro _ hf
    cases fs with
    | nil =>
      have h1 : ∀ c ∈ f, needsQuoteChar c = false := hf f (by simp)
      show splitFieldsAux false [] (encodeRecord [f]) = [String.mk f]
      have e : encodeRecord [f] = f := rfl
      rw [e, ← List.append_nil f, splitFields_passthrough f h1 [] []]
      simp [splitFieldsAux]
    | cons g gs =>
      have h1 : ∀ c ∈ f, needsQuoteChar c = false := hf f (by simp)
      have h2 : ∀ x ∈ g :: gs, ∀ c ∈ x, needsQuoteChar c = false :=
        fun x hx => hf x (by simp [hx])
      have e : encodeRecord (f :: g :: gs) = f ++ ',' :: encodeRecord (g :: gs) := rfl
      show splitFieldsAux false [] (encodeRecord (f :: g :: gs)) = _
      rw [e, splitFields_passthrough f h1 [] (',' :: encodeRecord (g :: gs))]
      simp only [List.append_nil]
      have estep : splitFieldsAux false f.reverse (',' :: encodeRecord (g :: gs))
          = String.mk f.reverse.reverse :: splitFieldsAux false [] (encodeRecord (g :: gs)) := by
        simp [splitFieldsAux]
      rw [estep,
        show splitFieldsAux false [] (encodeRecord (g :: gs))
          = parseFields (encodeRecord (g :: gs)) from rfl,
        ih (by simp) h2]
      simp

lemma splitLines_line (line : List Char) (h : ∀ c ∈ line, ¬(c = '\n')) :
    ∀ (acc rest : List Char),
      splitLinesAux acc (line ++ '\n' :: rest) = (acc.reverse ++ line) :: splitLinesAux [] rest := by
  induction line with
  | nil =>
    intro acc rest
    simp [splitLinesAux]
  | cons c cs ih =>
    intro acc rest
    have hc : ¬(c = '\n') := h c (by simp)
    have hcs : ∀ x ∈ cs, ¬(x = '\n') := fun x hx => h x (by simp [hx])
    simp only [List.cons_append, splitLinesAux, if_neg hc, List.append_eq]
    rw [ih hcs (c :: acc) rest]
    simp [List.append_assoc]

lemma splitLines_rowsChars (rows : List (List Cell))
    (h : ∀ r ∈ rows, ∀ c ∈ encodeRecord (r.map cellField), ¬(c = '\n')) :
    splitLinesAux [] (rowsChars rows)
      = (rows.map (fun r => encodeRecord (r.map cellField))) ++ [[]] := by
  induction rows with
  | nil =>
    simp [rowsChars, splitLinesAux]
  | cons r rs ih =>
    have h1 := h r (by simp)
    have h2 : ∀ x ∈ rs, ∀ c ∈ encodeRecord (x.map cellField), ¬(c = '\n') :=
      fun x hx => h x (by simp [hx])
    show splitLinesAux [] (encodeRecord (r.map cellField) ++ '\n' :: rowsChars rs) = _
    rw [splitLines_line _ h1 [] (rowsChars rs), ih h2]
    simp

lemma mem_encodeRecord : ∀ (fields : List (List Char)) (c : Char),
    c ∈ encodeRecord fields → c = ',' ∨ ∃ f ∈ fields, c ∈ f := by
  intro fields
  induction fields with
  | nil =>
    intro c hc
    simp [encodeRecord] at hc
  | cons f fs ih =>
    intro c hc
    cases fs with
    | nil =>
      exact Or.inr ⟨f, by simp, hc⟩
    | cons g gs =>
      have e : encodeRecord (f :: g :: gs) = f ++ ',' :: encodeRecord (g :: gs) := rfl
      rw [e] at hc
      rcases List.mem_append.mp hc with hm | hm
      · exact Or.inr ⟨f, by simp, hm⟩
      · rcases List.mem_cons.mp hm with hm | hm
        · exact Or.inl hm
        · rcases ih c hm with hm | ⟨x, hx, hcx⟩
          · exact Or.inl hm
          · exact Or.inr ⟨x, by simp [hx], hcx⟩

lemma encodeRecord_ne_nil : ∀ (fields : List (List Char)), 2 ≤ fields.length →
    encodeRecord fields ≠ [] := by
  intro fields h
  match fields, h with
  | f :: g :: gs, _ =>
    show f ++ ',' :: encodeRecord (g :: gs) ≠ []
    simp

lemma toCell_roundtrip (c : Cell) (h : plainCell c = true) :
    toCell (String.mk (cellField c)) = c := by
  cases c with
  | null =>
    decide
  | str s =>
    have hplain : plainStr s = true := h
    rw [plainStr, Bool.and_eq_true] at hplain
    have hall : s.data.all plainChar = true := hplain.1
    have hna : naValues.contains s = false := by
      have := hplain.2
      rwa [Bool.not_eq_true'] at this
    show toCell (String.mk (encodeField s)) = Cell.str s
    rw [encodeField_plain s hall, string_mk_data]
    unfold toCell
    rw [if_neg (fun hcontra => by rw [hna] at hcontra; exact Bool.false_ne_true hcontra)]

lemma row_roundtrip (r : List Cell) (hcells : r.all plainCell = true) (hne : r ≠ []) :
    (parseFields (encodeRecord (r.map cellField))).map toCell = r := by
  have hf : ∀ f ∈ r.map cellField, ∀ c ∈ f, needsQuoteChar c = false := by
    intro f hfm c hcf
    rcases List.mem_map.mp hfm with ⟨cell, hcell, rfl⟩
    have hp := List.all_eq_true.mp hcells cell hcell
    cases cell with
    | null =>
      simp [cellField] at hcf
    | str s =>
      rw [plainCell, plainStr, Bool.and_eq_true] at hp
      have hall : s.data.all plainChar = true := hp.1
      rw [cellField, encodeField_plain s hall] at hcf
      have hpc := List.all_eq_true.mp hall c hcf
      rwa [plainChar, Bool.not_eq_true'] at hpc
  have hmapne : r.map cellField ≠ [] := by simpa using hne
  rw [parseFields_encodeRecord (r.map cellField) hmapne hf, List.map_map, List.map_map]
  have hpt : ∀ a ∈ r, ((toCell ∘ String.mk) ∘ cellField) a = id a :=
    fun a ha => toCell_roundtrip a (List.all_eq_true.mp hcells a ha)
  rw [List.map_congr_left hpt, List.map_id]

/-- C8 (amended): serializing a table whose cells are plain text — every
non-null cell nonempty, not an NA sentinel (such as `nan` or `N/A`), and
free of delimiter/quote/newline characters, likewise the column names —
to the UTF-8 comma-delimited output and re-loading it yields exactly the
original table: same row count, all non-null field values preserved, and
null cells re-loading as null.  Without the plain-text restriction the
claim fails (see the counterexample: a non-null empty-string field
re-loads as null). -/
theorem csv_roundtrip (df : DFrame)
    (hc2 : 2 ≤ df.cols.length)
    (hcols : df.cols.all plainStr = true)
    (hrect : ∀ r ∈ df.rows, r.length = df.cols.length)
    (hcells : ∀ r ∈ df.rows, r.all plainCell = true) :
    readCsv (toCsvChars df) = some df := by
  obtain ⟨cols, rows⟩ := df
  simp only at hc2 hcols hrect hcells
  have hcolsdata : ∀ c ∈ cols, c.data.all plainChar = true := by
    intro c hc
    have := List.all_eq_true.mp hcols c hc
    rw [plainStr, Bool.and_eq_true] at this
    exact this.1
  have hH : cols.map (fun c => encodeField c) = cols.map (fun c => c.data) :=
    List.map_congr_left (fun c hc => encodeField_plain c (hcolsdata c hc))
  have hheader_chars : ∀ ch ∈ encodeRecord (cols.map (fun c => encodeField c)),
      ¬(ch = '\n') := by
    intro ch hch
    rcases mem_encodeRecord _ ch hch with hm | ⟨f, hfm, hcf⟩
    · subst hm; decide
    · rw [hH] at hfm
      rcases List.mem_map.mp hfm with ⟨c, hc, rfl⟩
      have := List.all_eq_true.mp (hcolsdata c hc) ch hcf
      rw [plainChar, Bool.not_eq_true'] at this
      exact (needsQuote_false_facts ch this).2.2.1
  have hrow_chars : ∀ r ∈ rows, ∀ ch ∈ encodeRecord (r.map cellField), ¬(ch = '\n') := by
    intro r hr ch hch
    rcases mem_encodeRecord _ ch hch with hm | ⟨f, hfm, hcf⟩
    · subst hm; decide
    · rcases List.mem_map.mp hfm with ⟨cell, hcell, rfl⟩
      have hp := List.all_eq_true.mp (hcells r hr) cell hcell
      cases cell with
      | null =>
        simp [cellField] at hcf
      | str s =>
        rw [plainCell, plainStr, Bool.and_eq_true] at hp
        rw [cellField, encodeField_plain s hp.1] at hcf
        have := List.all_eq_true.mp hp.1 ch hcf
        rw [plainChar, Bool.not_eq_true'] at this
        exact (needsQuote_false_facts ch this).2.2.1
  have hsplit : splitLinesAux [] (toCsvChars ⟨cols, rows⟩)
      = encodeRecord (cols.map (fun c => encodeField c))
          :: ((rows.map (fun r => encodeRecord (r.map cellField))) ++ [[]]) := by
    show splitLinesAux []
        (encodeRecord (cols.map (fun c => encodeField c)) ++ '\n' :: rowsChars rows) = _
    rw [splitLines_line _ hheader_chars [] (rowsChars rows), splitLines_rowsChars rows hrow_chars]
    simp
  have hheader_ne : encodeRecord (cols.map (fun c => encodeField c)) ≠ [] := by
    apply encodeRecord_ne_nil
    simpa using hc2
  have hrowline_ne : ∀ l ∈ rows.map (fun r => encodeRecord (r.map cellField)), l ≠ [] := by
    intro l hl
    rcases List.mem_map.mp hl with ⟨r, hr, rfl⟩
    apply encodeRecord_ne_nil
    have := hrect r hr
    simp [this]
    omega
  have hfilter : (splitLinesAux [] (toCsvChars ⟨cols, rows⟩)).filter (fun l => !l.isEmpty)
      = encodeRecord (cols.map (fun c => encodeField c))
          :: rows.map (fun r => encodeRecord (r.map cellField)) := by
    rw [hsplit, List.filter_cons_of_pos (by simp [hheader_ne]), List.filter_append]
    have h1 : (rows.map (fun r => encodeRecord (r.map cellField))).filter (fun l => !l.isEmpty)
        = rows.map (fun r => encodeRecord (r.map cellField)) := by
      rw [List.filter_eq_self]
      intro l hl
      simp [hrowline_ne l hl]
    rw [h1]
    simp
  have hheader_eq : parseFields (encodeRecord (cols.map (fun c => encodeField c))) = cols := by
    rw [hH, parseFields_encodeRecord]
    · rw [List.map_map]
      have hpt : ∀ c ∈ cols, (String.mk ∘ fun c => c.data) c = id c :=
        fun c _ => string_mk_data c
      rw [List.map_congr_left hpt, List.map_id]
    · intro hnil
      rw [List.map_eq_nil_iff] at hnil
      subst hnil
      simp at hc2
    · intro f hfm c hcf
      rcases List.mem_map.mp hfm with ⟨x, hx, rfl⟩
      have := List.all_eq_true.mp (hcolsdata x hx) c hcf
      rwa [plainChar, Bool.not_eq_true'] at this
  have hrows_eq : (rows.map (fun r => encodeRecord (r.map cellField))).map
      (fun l => (parseFields l).map toCell) = rows := by
    rw [List.map_map]
    have hpt : ∀ r ∈ rows,
        ((fun l => (parseFields l).map toCell) ∘ fun r => encodeRecord (r.map cellField)) r
          = id r := by
      intro r hr
      have hne : r ≠ [] := by
        intro hnil
        have := hrect r hr
        rw [hnil] at this
        simp at this
        omega
      exact row_roundtrip r (hcells r hr) hne
    rw [List.map_congr_left hpt, List.map_id]
  unfold readCsv
  rw [hfilter]
  show some (DFrame.mk (parseFields (encodeRecord (cols.map (fun c => encodeField c))))
      ((rows.map (fun r => encodeRecord (r.map cellField))).map
        (fun l => (parseFields l).map toCell)))
    = some (DFrame.mk cols rows)
  rw [hheader_eq, hrows_eq]

/-- A merged table whose cells are plain text: round trip applies. -/
def dfPlain : DFrame :=
  { cols := ["CustomerID", "Timestamp", "Activity", "Source"]
    rows := [[Cell.str "c1", Cell.str "2024-01-01 10:00:00", Cell.str "click", Cell.str "Website"],
             [Cell.str "c2", Cell.null, Cell.str "view", Cell.str "Store"]] }

/-- Witness for C8 (amended): a two-row plain-text table re-loads
identically, null timestamp included. -/
theorem csv_roundtrip_witness : readCsv (toCsvChars dfPlain) = some dfPlain := by
  exact csv_roundtrip dfPlain (by decide) (by decide) (by decide) (by decide)

/-- A merged table with a non-null empty-string CustomerID (as produced
from a whitespace-only CustomerID cell). -/
def dfEmptyCell : DFrame :=
  { cols := ["CustomerID", "Timestamp", "Activity", "Source"]
    rows := [[Cell.str "", Cell.str "2024-01-01", Cell.str "click", Cell.str "Website"]] }

/-- Counterexample for C8 as stated: the non-null empty-string CustomerID
field does not survive the round trip — it re-loads as null. -/
theorem csv_roundtrip_counterexample :
    readCsv (toCsvChars dfEmptyCell)
      = some { cols := ["CustomerID", "Timestamp", "Activity", "Source"]
               rows := [[Cell.null, Cell.str "2024-01-01", Cell.str "click", Cell.str "Website"]] }
    ∧ dfEmptyCell.rows
      = [[Cell.str "", Cell.str "2024-01-01", Cell.str "click", Cell.str "Website"]]
    ∧ Cell.str "" ≠ Cell.null := by
  refine ⟨rfl, rfl, by decide⟩

end TestApp
